import Mathlib

/-!
Verification of the i3X-Explorer subscription/update pipeline.

This file gives a shallow embedding, in Lean 4, of the core of the
repository: the payload normalizer `extractVQT`
(src/src/api/subscription.ts, duplicated in the catalog client), the
push-stream transport `SSESubscription`, the polling transport
`PollingSubscription`, and the live-value store
(`useSubscriptionsStore` with `addMonitoredItem`, `removeMonitoredItem`,
`updateLiveValue`).  Machine/runtime values are modelled explicitly:
JavaScript values become the inductive `JVal`, `undefined` becomes
`Option.none`, JS `Map`s become ordered association lists, and the
timer/callback behaviour of the two transports becomes explicit state
machines emitting event lists.
-/

set_option maxHeartbeats 1000000

namespace I3X

/-- Model of a JavaScript runtime value, as far as the subscription
pipeline inspects values: finite numbers (as rationals), the number
`NaN`, strings, booleans, `null`, plain objects (ordered field lists)
and arrays.  The value `undefined`, and a missing field, are modelled
as `Option.none` at use sites. -/
inductive JVal : Type where
  | num (q : ℚ)
  | nan
  | str (s : String)
  | boolv (b : Bool)
  | nullv
  | obj (fields : List (String × JVal))
  | arr (elems : List JVal)

/-- Property access `v[k]`: a present field of a plain object gives the
stored value; every other access (primitives, `null`, arrays, whose
tracked keys are numeric indices only) gives `undefined` (`none`). -/
def JVal.getField : JVal → String → Option JVal
  | .obj fields, k => (fields.find? (fun p => p.1 == k)).map (·.2)
  | _, _ => none

/-- JavaScript truthiness of a value. -/
def JVal.truthy : JVal → Bool
  | .num q => decide (q ≠ 0)
  | .nan => false
  | .str s => s ≠ ""
  | .boolv b => b
  | .nullv => false
  | .obj _ => true
  | .arr _ => true

/-- The test `typeof v === 'object'`: true for plain objects, arrays and
`null`. -/
def JVal.isObjectType : JVal → Bool
  | .obj _ => true
  | .arr _ => true
  | .nullv => true
  | _ => false

/-- Result shape of `extractVQT`: each field is `none` when the
extracted JavaScript value is `undefined`. -/
structure VQT where
  value : Option JVal
  quality : Option JVal
  timestamp : Option JVal

/-- Embedding of `extractVQT` (src/src/api/subscription.ts lines 18-37;
an identical copy lives in the catalog client): if `payload.value` is a
truthy object-typed value whose `Data` field is in turn truthy and
object-typed, return `(Data.Value, Data.Quality, Data.Timestamp)`;
otherwise return `(payload.value, payload.quality, payload.timestamp)`
unchanged.  The source casts quality/timestamp to `string | undefined`
without converting them, so the model keeps them as raw values. -/
def extractVQT (payload : List (String × JVal)) : VQT :=
  let flat : VQT :=
    { value := JVal.getField (.obj payload) "value"
      quality := JVal.getField (.obj payload) "quality"
      timestamp := JVal.getField (.obj payload) "timestamp" }
  match JVal.getField (.obj payload) "value" with
  | some v =>
      if v.truthy && v.isObjectType then
        match v.getField "Data" with
        | some d =>
            if d.truthy && d.isObjectType then
              { value := d.getField "Value"
                quality := d.getField "Quality"
                timestamp := d.getField "Timestamp" }
            else flat
        | none => flat
      else flat
  | none => flat

/-- The detection condition of the nested server encoding, exactly as
the code tests it: `payload.value` exists, is truthy and `typeof
'object'`, and its `Data` field exists, is truthy and `typeof
'object'`. -/
def nestedShape (payload : List (String × JVal)) : Prop :=
  ∃ v d, JVal.getField (.obj payload) "value" = some v ∧
    v.truthy = true ∧ v.isObjectType = true ∧
    v.getField "Data" = some d ∧ d.truthy = true ∧ d.isObjectType = true

/-- C1: the payload normalizer is total (it is a Lean function, so it
can raise no error on any input object); on every entry whose `value`
field holds an object containing a `Data` object it returns the triple
`(Data.Value, Data.Quality, Data.Timestamp)`; on every other entry it
returns `(value, quality, timestamp)` unchanged; and when the entry has
no `value` field the resulting value is `undefined` (`none`). -/
theorem extractVQT_characterization (payload : List (String × JVal)) :
    (∀ v d, JVal.getField (.obj payload) "value" = some v →
      v.truthy = true → v.isObjectType = true →
      v.getField "Data" = some d → d.truthy = true → d.isObjectType = true →
      extractVQT payload =
        { value := d.getField "Value"
          quality := d.getField "Quality"
          timestamp := d.getField "Timestamp" }) ∧
    (¬ nestedShape payload →
      extractVQT payload =
        { value := JVal.getField (.obj payload) "value"
          quality := JVal.getField (.obj payload) "quality"
          timestamp := JVal.getField (.obj payload) "timestamp" }) ∧
    (JVal.getField (.obj payload) "value" = none →
      (extractVQT payload).value = none) := by
  refine ⟨?_, ?_, ?_⟩
  · intro v d hv htru hobj hd dtru dobj
    unfold extractVQT
    rw [hv]
    simp only [htru, hobj, Bool.and_self, if_true, hd, dtru, dobj]
  · intro hnot
    unfold extractVQT
    cases hv : JVal.getField (.obj payload) "value" with
    | none => simp
    | some v =>
      cases htv : (v.truthy && v.isObjectType) with
      | false => simp [htv]
      | true =>
        simp only [htv, if_true]
        cases hd : v.getField "Data" with
        | none => simp
        | some d =>
          cases htd : (d.truthy && d.isObjectType) with
          | false => simp [htd]
          | true =>
            exfalso
            apply hnot
            rw [Bool.and_eq_true] at htv htd
            exact ⟨v, d, hv, htv.1, htv.2, hd, htd.1, htd.2⟩
  · intro hv
    unfold extractVQT
    rw [hv]

/-- Witness for C1: the nested branch evaluated on a concrete nested
payload, and the flat branch on a concrete flat payload. -/
theorem extractVQT_characterization_witness :
    extractVQT [("value", JVal.obj [("Data", JVal.obj
        [("Value", JVal.num 7), ("Quality", JVal.str "Good"),
         ("Timestamp", JVal.str "T")])])] =
      { value := some (JVal.num 7), quality := some (JVal.str "Good")
        timestamp := some (JVal.str "T") } ∧
    extractVQT [("value", JVal.num 42), ("quality", JVal.str "Good")] =
      { value := some (JVal.num 42), quality := some (JVal.str "Good")
        timestamp := none } := by
  constructor
  · exact (extractVQT_characterization _).1
      (JVal.obj [("Data", JVal.obj [("Value", JVal.num 7),
        ("Quality", JVal.str "Good"), ("Timestamp", JVal.str "T")])])
      (JVal.obj [("Value", JVal.num 7), ("Quality", JVal.str "Good"),
        ("Timestamp", JVal.str "T")])
      rfl rfl rfl rfl rfl rfl
  · exact (extractVQT_characterization _).2.1 (by
      rintro ⟨v, d, hv, -, hobj, -, -, -⟩
      simp [JVal.getField, List.find?] at hv
      rw [← hv] at hobj
      simp [JVal.isObjectType] at hobj )

/-! ## Sync items: the shared shape of push-stream messages and poll-sync
responses

Both the push-stream message handler (`SSESubscription.processMessage`)
and the poll-sync client method (`I3XClient.sync`) receive an array of
mappings from element identity to an envelope `{ data: [entry, ...] }`
and turn it into a list of `SyncResponseItem`s. -/

/-- A normalized update item as both transports deliver it.  The source
writes `quality: vqt.quality ?? null`, so `quality` and `timestamp` are
always defined (possibly `null`); `value` can still be `undefined`. -/
structure SyncResponseItem where
  elementId : String
  value : Option JVal
  quality : JVal
  timestamp : JVal

/-- The envelope mapped to by one element identity in a raw response:
either a nullish payload, or an object whose `data` field (when present)
is a list of raw update entries (each an object). -/
inductive Envelope : Type where
  | nullPayload
  | mk (data : Option (List (List (String × JVal))))

/-- The guard `payload?.data?.[0]` of both loops: the first raw entry,
when the payload is non-nullish, has a `data` list, and that list is
nonempty (an entry is an object, hence truthy). -/
def Envelope.firstEntry : Envelope → Option (List (String × JVal))
  | .nullPayload => none
  | .mk none => none
  | .mk (some []) => none
  | .mk (some (p :: _)) => some p

/-- A parsed raw message/response: an array of elementId-to-envelope
mappings. -/
abbrev RawMessage := List (List (String × Envelope))

/-- Embedding of the item-building loop of
`SSESubscription.processMessage` (src/src/api/subscription.ts lines
201-215): for each entry of the parsed array and each `[elementId,
payload]` pair, if `payload?.data?.[0]` exists, normalize it with
`extractVQT` and push the resulting item. -/
def processMessageItems (raw : RawMessage) : List SyncResponseItem :=
  raw.foldl (fun items entry =>
    entry.foldl (fun items2 kv =>
      match kv.2.firstEntry with
      | some p0 =>
          let vqt := extractVQT p0
          items2 ++ [{ elementId := kv.1, value := vqt.value
                       quality := vqt.quality.getD .nullv
                       timestamp := vqt.timestamp.getD .nullv }]
      | none => items2) items) []

/-- Embedding of the item-building loop of `I3XClient.sync`
(src/unnamed/part_000 lines 272-286), which is textually the same loop
as `processMessageItems` in the source. -/
def syncItems (response : RawMessage) : List SyncResponseItem :=
  response.foldl (fun items entry =>
    entry.foldl (fun items2 kv =>
      match kv.2.firstEntry with
      | some p0 =>
          let vqt := extractVQT p0
          items2 ++ [{ elementId := kv.1, value := vqt.value
                       quality := vqt.quality.getD .nullv
                       timestamp := vqt.timestamp.getD .nullv }]
      | none => items2) items) []

/-- Specification-level description of the forwarded items: exactly one
normalized item per `[elementId, payload]` pair whose envelope has a
first data entry, in traversal order, normalizing only that first
entry. -/
def forwardedFirstEntries (raw : RawMessage) : List SyncResponseItem :=
  raw.foldr (fun entry acc =>
    entry.filterMap (fun kv =>
      (kv.2.firstEntry).map (fun p0 =>
        let vqt := extractVQT p0
        { elementId := kv.1, value := vqt.value
          quality := vqt.quality.getD .nullv
          timestamp := vqt.timestamp.getD .nullv })) ++ acc) []

theorem innerFold_eq (entry : List (String × Envelope))
    (acc : List SyncResponseItem) :
    entry.foldl (fun items2 kv =>
      match kv.2.firstEntry with
      | some p0 =>
          let vqt := extractVQT p0
          items2 ++ [{ elementId := kv.1, value := vqt.value
                       quality := vqt.quality.getD .nullv
                       timestamp := vqt.timestamp.getD .nullv }]
      | none => items2) acc =
    acc ++ entry.filterMap (fun kv =>
      (kv.2.firstEntry).map (fun p0 =>
        let vqt := extractVQT p0
        { elementId := kv.1, value := vqt.value
          quality := vqt.quality.getD .nullv
          timestamp := vqt.timestamp.getD .nullv })) := by
  induction entry generalizing acc with
  | nil => simp
  | cons kv rest ih =>
    cases h : kv.2.firstEntry with
    | none => simp [List.foldl_cons, List.filterMap_cons, h, ih]
    | some p0 => simp [List.foldl_cons, List.filterMap_cons, h, ih]

theorem outerFold_eq (raw : RawMessage) (acc : List SyncResponseItem) :
    raw.foldl (fun items entry =>
      entry.foldl (fun items2 kv =>
        match kv.2.firstEntry with
        | some p0 =>
            let vqt := extractVQT p0
            items2 ++ [{ elementId := kv.1, value := vqt.value
                         quality := vqt.quality.getD .nullv
                         timestamp := vqt.timestamp.getD .nullv }]
        | none => items2) items) acc =
    acc ++ forwardedFirstEntries raw := by
  induction raw generalizing acc with
  | nil => simp [forwardedFirstEntries]
  | cons entry rest ih =>
    simp only [List.foldl_cons, forwardedFirstEntries, List.foldr_cons]
    rw [innerFold_eq, ih]
    simp [forwardedFirstEntries, List.append_assoc]

/-- C6: push and poll delivery are observationally equivalent — for
every raw response array, the item list the push-stream message handler
builds equals the item list the poll-sync client method builds, and both
normalize and forward exactly the first entry of each element's data
list. -/
theorem processMessage_sync_equiv (raw : RawMessage) :
    processMessageItems raw = syncItems raw ∧
    processMessageItems raw = forwardedFirstEntries raw := by
  have h1 : processMessageItems raw = forwardedFirstEntries raw := by
    unfold processMessageItems
    simpa using outerFold_eq raw []
  have h2 : syncItems raw = forwardedFirstEntries raw := by
    unfold syncItems
    simpa using outerFold_eq raw []
  exact ⟨h1.trans h2.symm, h1⟩

/-! ## Polling transport (`PollingSubscription`) -/

/-- Result of one `syncFn()` call made by `PollingSubscription.poll`:
either the item list, or a thrown error. -/
inductive PollResult : Type where
  | ok (items : List SyncResponseItem)
  | err (e : String)

/-- Observable callback invocations of the polling transport. -/
inductive PollEvent : Type where
  | dataDelivered (items : List SyncResponseItem)
  | errorDelivered (e : String)

/-- State of a `PollingSubscription`: only the interval timer handle. -/
structure PollState where
  intervalId : Option Nat

/-- Callback invocations of one `poll()` body
(src/src/api/subscription.ts lines 295-304): deliver the items when
nonempty, deliver the error when `syncFn` throws. -/
def pollEvents : PollResult → List PollEvent
  | .ok items => if items.length > 0 then [.dataDelivered items] else []
  | .err e => [.errorDelivered e]

/-- One `poll()` call: it reads no timer state and never clears the
interval, so the state is returned unchanged. -/
def pollStep (s : PollState) (r : PollResult) : PollState × List PollEvent :=
  (s, pollEvents r)

/-- Embedding of `PollingSubscription.stop` (lines 306-311): clear the
interval handle. -/
def pollStop (s : PollState) : PollState :=
  { s with intervalId := none }

/-- Embedding of `PollingSubscription.start` (lines 289-293): stop any
previous timer, perform the initial poll, then install the interval
timer (`newId` models the fresh handle `setInterval` returns). -/
def pollStart (s : PollState) (newId : Nat) (first : PollResult) :
    PollState × List PollEvent :=
  let s1 := pollStop s
  ({ s1 with intervalId := some newId }, pollEvents first)

/-- A run of the interval timer: each tick performs one `poll()` whose
`syncFn` outcome is the next element of `rs`. -/
def runPolls (s : PollState) : List PollResult → PollState × List PollEvent
  | [] => (s, [])
  | r :: rs =>
      let step := pollStep s r
      let rest := runPolls step.1 rs
      (rest.1, step.2 ++ rest.2)

/-- Whether the polling loop is installed (`isRunning`). -/
def PollState.isRunning (s : PollState) : Bool :=
  s.intervalId.isSome

theorem runPolls_state (rs : List PollResult) (s : PollState) :
    (runPolls s rs).1 = s := by
  induction rs generalizing s with
  | nil => rfl
  | cons r rest ih => simp [runPolls, pollStep, ih]

theorem runPolls_events (rs : List PollResult) (s : PollState) :
    (runPolls s rs).2 = rs.foldr (fun r acc => pollEvents r ++ acc) [] := by
  induction rs generalizing s with
  | nil => rfl
  | cons r rest ih => simp [runPolls, pollStep, ih]

theorem events_err_count (rs : List PollResult) :
    ((rs.foldr (fun r acc => pollEvents r ++ acc) []).countP
        (fun ev => match ev with | .errorDelivered _ => true | _ => false)) =
      rs.countP (fun r => match r with | .err _ => true | _ => false) := by
  induction rs with
  | nil => rfl
  | cons r rest ih =>
    simp only [List.foldr_cons, List.countP_append, List.countP_cons, ih]
    cases r with
    | ok items =>
      by_cases h : items.length > 0
      · simp [pollEvents, h, List.countP_cons]
      · simp [pollEvents, h]
    | err e =>
      simp [pollEvents, List.countP_cons]
      omega

/-- C7: in poll mode a failed poll invokes `onFailure` with the error
while the loop keeps running — after `start`, any sequence of poll
outcomes leaves the interval installed and the state unchanged, each
failure contributes exactly one `errorDelivered` event (so the number of
error deliveries equals the number of failures), and only an explicit
`stop` clears the interval. -/
theorem polling_failures_nonfatal (s0 : PollState) (newId : Nat)
    (first : PollResult) (rs : List PollResult) :
    (runPolls (pollStart s0 newId first).1 rs).1 = (pollStart s0 newId first).1 ∧
    ((runPolls (pollStart s0 newId first).1 rs).1).isRunning = true ∧
    (runPolls (pollStart s0 newId first).1 rs).2 =
      rs.foldr (fun r acc => pollEvents r ++ acc) [] ∧
    ((runPolls (pollStart s0 newId first).1 rs).2.countP
        (fun ev => match ev with | .errorDelivered _ => true | _ => false)) =
      (rs.countP (fun r => match r with | .err _ => true | _ => false)) ∧
    (pollStop (runPolls (pollStart s0 newId first).1 rs).1).isRunning = false := by
  refine ⟨runPolls_state rs _, ?_, runPolls_events rs _, ?_, ?_⟩
  · rw [runPolls_state rs _]
    rfl
  · rw [runPolls_events rs _]
    exact events_err_count rs
  · rfl

/-! ## Delivery guards (no empty batches) -/

/-- The delivery decision of `SSESubscription.processMessage` (lines
199-222): `parsed = none` models a `JSON.parse` failure (logged and
skipped); otherwise `onData` is invoked exactly when the built item list
is nonempty. -/
def processMessageEmission (parsed : Option RawMessage) :
    Option (List SyncResponseItem) :=
  match parsed with
  | none => none
  | some raw =>
      let items := processMessageItems raw
      if items.length > 0 then some items else none

/-- C10: neither transport invokes `onData` with an empty list — a
push-stream message yielding zero forwardable items produces no
delivery, and a poll returning zero items produces no delivery. -/
theorem no_empty_batches :
    (∀ (parsed : Option RawMessage) (items : List SyncResponseItem),
      processMessageEmission parsed = some items → items ≠ []) ∧
    (∀ (r : PollResult) (items : List SyncResponseItem),
      PollEvent.dataDelivered items ∈ pollEvents r → items ≠ []) := by
  constructor
  · intro parsed items h
    cases parsed with
    | none => simp [processMessageEmission] at h
    | some raw =>
      simp only [processMessageEmission] at h
      by_cases hl : (processMessageItems raw).length > 0
      · rw [if_pos hl] at h
        cases h
        intro hnil
        rw [hnil] at hl
        simp at hl
      · rw [if_neg hl] at h
        cases h
  · intro r items h
    cases r with
    | ok l =>
      simp only [pollEvents] at h
      by_cases hl : l.length > 0
      · rw [if_pos hl] at h
        simp at h
        cases h
        intro hnil
        rw [hnil] at hl
        simp at hl
      · rw [if_neg hl] at h
        simp at h
    | err e => simp [pollEvents] at h

/-- Witness for C10: a concrete nonempty push-stream emission and a
concrete nonempty poll delivery, both necessarily nonempty. -/
theorem no_empty_batches_witness :
    ([⟨"e1", some (JVal.num 42), JVal.str "Good", JVal.nullv⟩] :
      List SyncResponseItem) ≠ [] := by
  exact no_empty_batches.2
    (PollResult.ok [⟨"e1", some (JVal.num 42), JVal.str "Good", JVal.nullv⟩]) _
    (by simp [pollEvents])

/-! ## Push-stream transport (`SSESubscription`)

The transport is modelled as an explicit state machine.  `setTimeout`
callbacks scheduled by `handleDisconnect` are tracked in
`pendingReconnectDelays`: the source never stores the timer handle, so
no operation of the class can clear such a timer once scheduled — a fact
the model makes visible by keeping the list in the state. -/

/-- Observable actions of the push-stream transport. -/
inductive SSEEvent : Type where
  | scheduledReconnect (delay : Nat)
  | onErrorCalled
  | connectAttempt
  | ipcDisconnectIssued
  | abortIssued
  deriving DecidableEq

/-- Fields of `SSESubscription` (src/src/api/subscription.ts lines
39-50), with `cleanupFns` abstracted to its length, the
`AbortController` to an opaque handle, and pending (never-stored)
reconnect timers tracked explicitly. -/
structure SSEState where
  cleanupFns : Nat
  streamId : Option String
  abortController : Option Nat
  reconnectAttempts : Nat
  maxReconnectAttempts : Nat
  reconnectDelay : Nat
  connected : Bool
  pendingReconnectDelays : List Nat
  deriving DecidableEq

/-- A freshly constructed `SSESubscription` whose base reconnect delay
is `d` (the source initializes `reconnectDelay = 1000`,
`maxReconnectAttempts = 5`, `reconnectAttempts = 0`). -/
def initialSSE (d : Nat) : SSEState :=
  { cleanupFns := 0, streamId := none, abortController := none,
    reconnectAttempts := 0, maxReconnectAttempts := 5,
    reconnectDelay := d, connected := false,
    pendingReconnectDelays := [] }

/-- Embedding of `SSESubscription.handleDisconnect` (lines 224-241):
below the cap, increment the attempt counter and schedule a reconnect
after `reconnectDelay * 2 ^ (reconnectAttempts - 1)` ms (the handle of
the `setTimeout` is not stored anywhere); at the cap, invoke `onError`
with the terminal error. -/
def sseHandleDisconnect (s : SSEState) : SSEState × List SSEEvent :=
  if s.reconnectAttempts < s.maxReconnectAttempts then
    let s1 := { s with reconnectAttempts := s.reconnectAttempts + 1 }
    let delay := s1.reconnectDelay * 2 ^ (s1.reconnectAttempts - 1)
    ({ s1 with pendingReconnectDelays := s1.pendingReconnectDelays ++ [delay] },
      [.scheduledReconnect delay])
  else
    (s, [.onErrorCalled])

/-- The successful-open steps of `connectViaIPC`/`startFetch` (lines
100-101 and 160-161): `connected = true; reconnectAttempts = 0`. -/
def sseOpenSucceeded (s : SSEState) : SSEState :=
  { s with connected := true, reconnectAttempts := 0 }

/-- One pending reconnect timer firing (the `setTimeout` callback of
lines 230-237): unconditionally start a new connection attempt —
the callback consults no stopped flag. -/
def sseTimerFires (s : SSEState) : SSEState × List SSEEvent :=
  match s.pendingReconnectDelays with
  | [] => (s, [])
  | _ :: rest =>
      ({ s with pendingReconnectDelays := rest, abortController := some 0 },
        [.connectAttempt])

/-- Embedding of `SSESubscription.disconnect` (lines 243-262): run and
drop the IPC cleanup functions, disconnect the IPC stream if any, abort
the in-flight fetch if any, and reset `connected` and
`reconnectAttempts`.  No statement of the method touches a reconnect
timer, so `pendingReconnectDelays` is left as it is. -/
def sseDisconnect (s : SSEState) : SSEState × List SSEEvent :=
  let evs := (if s.streamId.isSome then [SSEEvent.ipcDisconnectIssued] else []) ++
             (if s.abortController.isSome then [SSEEvent.abortIssued] else [])
  ({ s with cleanupFns := 0, streamId := none, abortController := none,
            connected := false, reconnectAttempts := 0 }, evs)

/-- A run of `n` consecutive connection failures, each of which invokes
`handleDisconnect`, with the emitted events concatenated in order. -/
def runFailures : Nat → SSEState → SSEState × List SSEEvent
  | 0, s => (s, [])
  | n + 1, s =>
      let step := sseHandleDisconnect s
      let rest := runFailures n step.1
      (rest.1, step.2 ++ rest.2)

/-- C2: with base delay `d` and a maximum of 5 attempts, a run of six
consecutive failures (the initial connection plus reconnect attempts
1-5) schedules the reconnect attempts with delays `d·2^(n-1)` for
n = 1..5, then invokes `onError` exactly once and schedules no sixth
attempt; once the counter is exhausted `handleDisconnect` only reports
the terminal error and changes nothing; and any successful re-open
resets the attempt counter to zero. -/
theorem sse_backoff_schedule (d : Nat) :
    (runFailures 6 (initialSSE d)).2 =
      [SSEEvent.scheduledReconnect (d * 2 ^ 0),
       SSEEvent.scheduledReconnect (d * 2 ^ 1),
       SSEEvent.scheduledReconnect (d * 2 ^ 2),
       SSEEvent.scheduledReconnect (d * 2 ^ 3),
       SSEEvent.scheduledReconnect (d * 2 ^ 4),
       SSEEvent.onErrorCalled] ∧
    (∀ s : SSEState, s.maxReconnectAttempts ≤ s.reconnectAttempts →
      sseHandleDisconnect s = (s, [SSEEvent.onErrorCalled])) ∧
    (∀ s : SSEState, (sseOpenSucceeded s).reconnectAttempts = 0) := by
  refine ⟨?_, ?_, ?_⟩
  · simp [runFailures, sseHandleDisconnect, initialSSE]
  · intro s h
    simp [sseHandleDisconnect, Nat.not_lt.mpr h]
  · intro s
    rfl

/-- Witness for C2: the schedule evaluated at the source's base delay
of 1000 ms, and exhaustion evaluated at a state with five spent
attempts. -/
theorem sse_backoff_schedule_witness :
    (runFailures 6 (initialSSE 1000)).2 =
      [SSEEvent.scheduledReconnect 1000, SSEEvent.scheduledReconnect 2000,
       SSEEvent.scheduledReconnect 4000, SSEEvent.scheduledReconnect 8000,
       SSEEvent.scheduledReconnect 16000, SSEEvent.onErrorCalled] ∧
    sseHandleDisconnect { initialSSE 1000 with reconnectAttempts := 5 } =
      ({ initialSSE 1000 with reconnectAttempts := 5 },
        [SSEEvent.onErrorCalled]) := by
  exact ⟨(sse_backoff_schedule 1000).1,
    (sse_backoff_schedule 1000).2.1 _ (by decide)⟩

/-- C3 (code bug): `disconnect()` cannot cancel a pending reconnect
timer because `handleDisconnect` never stores the `setTimeout` handle —
after one failure schedules a reconnect and `disconnect()` is then
called, the scheduled timer is still pending, and when it fires it
unconditionally makes a new connection attempt. -/
theorem sse_stop_leaks_reconnect_timer :
    ((sseDisconnect (sseHandleDisconnect (initialSSE 1000)).1).1).pendingReconnectDelays =
      [1000] ∧
    (sseTimerFires (sseDisconnect (sseHandleDisconnect (initialSSE 1000)).1).1).2 =
      [SSEEvent.connectAttempt] := by
  constructor
  · rfl
  · rfl

/-- C9: stop is idempotent for both transports — a second
`SSESubscription.disconnect` issues no IPC disconnect, no abort and no
callback invocation (its event list is empty, and the `disconnect`
event list never contains an `onError` call), and leaves the state
exactly as the first stop left it; a second `PollingSubscription.stop`
likewise leaves the stopped state unchanged. -/
theorem stop_idempotent (s : SSEState) (p : PollState) :
    (sseDisconnect (sseDisconnect s).1).1 = (sseDisconnect s).1 ∧
    (sseDisconnect (sseDisconnect s).1).2 = [] ∧
    ((sseDisconnect s).2.all
      (fun ev => ev != SSEEvent.onErrorCalled)) = true ∧
    pollStop (pollStop p) = pollStop p := by
  refine ⟨?_, ?_, ?_, ?_⟩
  · simp [sseDisconnect]
  · simp [sseDisconnect]
  · simp only [sseDisconnect]
    cases hs : s.streamId.isSome <;> cases ha : s.abortController.isSome <;>
      simp [hs, ha]
  · rfl

/-! ## JavaScript `Map` model

The subscriptions store keeps `Map` objects.  A `Map` is an
insertion-ordered association list; `set` replaces in place or appends,
`delete` removes the matching entry, `get` finds it. -/

def mapGet {α : Type} : List (String × α) → String → Option α
  | [], _ => none
  | p :: rest, k => if p.1 = k then some p.2 else mapGet rest k

def mapSet {α : Type} : List (String × α) → String → α → List (String × α)
  | [], k, v => [(k, v)]
  | p :: rest, k, v => if p.1 = k then (k, v) :: rest else p :: mapSet rest k v

def mapDelete {α : Type} : List (String × α) → String → List (String × α)
  | [], _ => []
  | p :: rest, k => if p.1 = k then mapDelete rest k else p :: mapDelete rest k

theorem mapGet_mapSet_self {α : Type} (m : List (String × α)) (k : String)
    (v : α) : mapGet (mapSet m k v) k = some v := by
  induction m with
  | nil => simp [mapGet, mapSet]
  | cons p rest ih =>
    by_cases h : p.1 = k
    · simp [mapGet, mapSet, h]
    · simp [mapGet, mapSet, h, ih]

theorem mapGet_mapSet_ne {α : Type} (m : List (String × α)) (k k2 : String)
    (v : α) (hne : k2 ≠ k) : mapGet (mapSet m k v) k2 = mapGet m k2 := by
  induction m with
  | nil => simp [mapGet, mapSet, Ne.symm hne]
  | cons p rest ih =>
    by_cases h : p.1 = k
    · have h2 : ¬(k = k2) := fun hc => hne hc.symm
      simp [mapGet, mapSet, h, h2]
    · by_cases h3 : p.1 = k2 <;> simp [mapGet, mapSet, h, h3, hne, ih]

theorem mapGet_mapDelete_self {α : Type} (m : List (String × α))
    (k : String) : mapGet (mapDelete m k) k = none := by
  induction m with
  | nil => simp [mapGet, mapDelete]
  | cons p rest ih =>
    by_cases h : p.1 = k
    · simp [mapDelete, h, ih]
    · simp [mapGet, mapDelete, h, ih]

theorem mem_of_mem_mapSet {α : Type} (m : List (String × α)) (k : String)
    (v : α) (a : String × α) (ha : a ∈ mapSet m k v) :
    a ∈ m ∨ a = (k, v) := by
  induction m with
  | nil =>
    simp [mapSet] at ha
    exact Or.inr ha
  | cons p rest ih =>
    by_cases h : p.1 = k
    · simp only [mapSet, if_pos h, List.mem_cons] at ha
      rcases ha with h1 | h1
      · exact Or.inr h1
      · exact Or.inl (List.mem_cons_of_mem _ h1)
    · simp only [mapSet, if_neg h, List.mem_cons] at ha
      rcases ha with h1 | h1
      · exact Or.inl (h1 ▸ List.mem_cons_self _ _)
      · rcases ih h1 with h2 | h2
        · exact Or.inl (List.mem_cons_of_mem _ h2)
        · exact Or.inr h2

theorem mapGet_some_mem {α : Type} (m : List (String × α)) (k : String)
    (v : α) (h : mapGet m k = some v) : (k, v) ∈ m := by
  induction m with
  | nil => simp [mapGet] at h
  | cons p rest ih =>
    by_cases hk : p.1 = k
    · rw [mapGet, if_pos hk] at h
      injection h with h2
      subst hk
      subst h2
      simp
    · rw [mapGet, if_neg hk] at h
      exact List.mem_cons_of_mem _ (ih h)

/-! ## Numeric coercion used by `updateLiveValue`

The store appends a trend point when
`typeof value === 'number' ? value : parseFloat(String(value))` is not
`NaN`.  `String(·)` and `parseFloat` are modelled below; number
rendering is exact for integers and finite decimal expansions (rendering
of other rationals, and `parseFloat`'s exponent/`Infinity` forms, lie
outside every value the repository produces and are truncated,
respectively unsupported, by the model). -/

/-- Decimal digits of `rem / den` (with `rem < den`), most significant
first, up to `fuel` digits. -/
def fracDigitsAux : Nat → Nat → Nat → List Char
  | 0, _, _ => []
  | _ + 1, 0, _ => []
  | fuel + 1, rem, den =>
      Char.ofNat (48 + rem * 10 / den) :: fracDigitsAux fuel (rem * 10 % den) den

/-- JavaScript `String(q)` for a finite number `q`. -/
def qToJSString (q : ℚ) : String :=
  let sign := if q.num < 0 then "-" else ""
  let n := q.num.natAbs
  let ip := n / q.den
  let rem := n % q.den
  if rem = 0 then sign ++ toString ip
  else sign ++ toString ip ++ "." ++ String.mk (fracDigitsAux 20 rem q.den)

/-- Whether a value is `null` (array elements join as the empty string
for `null`). -/
def JVal.isNull : JVal → Bool
  | .nullv => true
  | _ => false

/-- JavaScript `String(v)`: strings unchanged, `null`/booleans/`NaN` by
name, plain objects as `"[object Object]"`, arrays joined with `","`
where a `null` element renders empty. -/
def jsStringOf : JVal → String
  | .num q => qToJSString q
  | .nan => "NaN"
  | .str s => s
  | .boolv b => cond b "true" "false"
  | .nullv => "null"
  | .obj _ => "[object Object]"
  | .arr es => String.intercalate ","
      (es.attach.map (fun e => if e.1.isNull then "" else jsStringOf e.1))
decreasing_by
  simp_wf
  have h := List.sizeOf_lt_of_mem e.2
  omega

/-- Numeric value of `ds` read as base-10 digits. -/
def digitsVal (ds : List Char) : Nat :=
  ds.foldl (fun a c => 10 * a + (c.toNat - 48)) 0

/-- JavaScript `parseFloat`: skip leading whitespace, optional sign,
integer digits, optional `.` and fraction digits; `NaN` (modelled as
`none`) when no digit was read, ignoring any trailing garbage. -/
def parseFloatQ (s : String) : Option ℚ :=
  let cs := s.toList.dropWhile Char.isWhitespace
  let sc : ℚ × List Char :=
    match cs with
    | '-' :: r => (-1, r)
    | '+' :: r => (1, r)
    | _ => (1, cs)
  let intDs := sc.2.takeWhile Char.isDigit
  let rest := sc.2.drop intDs.length
  let fracDs :=
    match rest with
    | '.' :: r => r.takeWhile Char.isDigit
    | _ => []
  if intDs.isEmpty && fracDs.isEmpty then none
  else
    some (sc.1 * ((digitsVal intDs : ℚ) +
      (digitsVal fracDs : ℚ) / (10 : ℚ) ^ fracDs.length))

/-- The numeric coercion of `updateLiveValue`
(src/unnamed/part_001 lines 105-106): a finite number is itself, `NaN`
is rejected by the `isNaN` guard, anything else goes through
`parseFloat(String(value))`. -/
def numericOf : JVal → Option ℚ
  | .num q => some q
  | .nan => none
  | v => parseFloatQ (jsStringOf v)

/-- The same coercion on a possibly-`undefined` value:
`String(undefined)` is `"undefined"`, which `parseFloat` rejects. -/
def numericOfOpt : Option JVal → Option ℚ
  | some v => numericOf v
  | none => parseFloatQ "undefined"

/-! ## Live value store (`useSubscriptionsStore`, src/unnamed/part_001) -/

/-- The trend buffer capacity `MAX_TREND_POINTS` (line 18). -/
def MAX_TREND_POINTS : Nat := 60

structure TrendPoint where
  value : ℚ
  timestamp : Nat
  deriving DecidableEq

structure Subscription where
  id : String
  createdAt : String
  monitoredItems : List String
  isStreaming : Bool
  deriving DecidableEq

/-- A live value record; `value` may be `undefined`, and `timestamp`
and `quality` are nullable. -/
structure LiveValue where
  elementId : String
  displayName : String
  value : Option JVal
  timestamp : JVal
  quality : JVal
  lastUpdated : Nat

/-- The state slice of `useSubscriptionsStore` that the claims touch
(the UI flag `isBottomPanelExpanded` is omitted). -/
structure SubsState where
  subscriptions : List (String × Subscription)
  liveValues : List (String × LiveValue)
  trendData : List (String × List TrendPoint)
  activeSubscriptionId : Option String

def emptySubsState : SubsState :=
  { subscriptions := [], liveValues := [], trendData := [],
    activeSubscriptionId := none }

/-- Embedding of `addSubscription` (lines 52-57). -/
def addSubscription (st : SubsState) (sub : Subscription) : SubsState :=
  { st with subscriptions := mapSet st.subscriptions sub.id sub,
            activeSubscriptionId := some sub.id }

/-- Embedding of `addMonitoredItem` (lines 71-82): when the subscription
exists and the element is not already monitored, append it; otherwise do
nothing. -/
def addMonitoredItem (st : SubsState) (subscriptionId elementId : String) :
    SubsState :=
  match mapGet st.subscriptions subscriptionId with
  | some sub =>
      if elementId ∈ sub.monitoredItems then st
      else
        { st with subscriptions := (mapSet st.subscriptions subscriptionId
            { sub with monitoredItems := sub.monitoredItems ++ [elementId] }) }
  | none => st

/-- Embedding of `removeMonitoredItem` (lines 84-97): when the
subscription exists, filter the element out of its monitored list and
delete the element's live value.  The method does not touch
`trendData`. -/
def removeMonitoredItem (st : SubsState) (subscriptionId elementId : String) :
    SubsState :=
  match mapGet st.subscriptions subscriptionId with
  | some sub =>
      { st with
        subscriptions := (mapSet st.subscriptions subscriptionId
          { sub with monitoredItems :=
              sub.monitoredItems.filter (fun i => i != elementId) }),
        liveValues := mapDelete st.liveValues elementId }
  | none => st

/-- Embedding of `updateLiveValue` (lines 99-118): overwrite the live
value with a fresh `lastUpdated` stamp; when the numeric coercion
succeeds, append a trend point and keep only the last
`MAX_TREND_POINTS` points (`Array.prototype.slice(-n)` is
`List.rtake n`). -/
def updateLiveValue (st : SubsState) (lv : LiveValue) (now : Nat) : SubsState :=
  let updatedLive := mapSet st.liveValues lv.elementId { lv with lastUpdated := now }
  match numericOfOpt lv.value with
  | some q =>
      let points := (mapGet st.trendData lv.elementId).getD []
      let newPoints := (points ++ [TrendPoint.mk q now]).rtake MAX_TREND_POINTS
      { st with liveValues := updatedLive,
                trendData := mapSet st.trendData lv.elementId newPoints }
  | none => { st with liveValues := updatedLive }

/-- A sequence of `updateLiveValue` calls, each with its arrival
time. -/
def applyLiveUpdates (st : SubsState) : List (LiveValue × Nat) → SubsState
  | [] => st
  | u :: rest => applyLiveUpdates (updateLiveValue st u.1 u.2) rest

/-- The trend points the updates for element `e` contribute, in arrival
order: one point per update whose numeric coercion succeeds. -/
def numericTrendPoints (e : String) (ups : List (LiveValue × Nat)) :
    List TrendPoint :=
  ups.filterMap (fun u =>
    if u.1.elementId = e then (numericOfOpt u.1.value).map (fun q => ⟨q, u.2⟩)
    else none)

/-- The monitored list of subscription `sid` (empty when absent). -/
def monitoredOf (st : SubsState) (sid : String) : List String :=
  ((mapGet st.subscriptions sid).map Subscription.monitoredItems).getD []

/-! ## Trend buffer lemmas (C4) -/

theorem take_absorb {α : Type} (n : Nat) (a b : List α) :
    (a ++ b.take n).take n = (a ++ b).take n := by
  rw [List.take_append_eq_append_take, List.take_append_eq_append_take,
    List.take_take, Nat.min_eq_left (Nat.sub_le n a.length)]

theorem rtake_append_rtake {α : Type} (n : Nat) (x y : List α) :
    (x.rtake n ++ y).rtake n = (x ++ y).rtake n := by
  rw [List.rtake_eq_reverse_take_reverse, List.rtake_eq_reverse_take_reverse,
    List.rtake_eq_reverse_take_reverse, List.reverse_append,
    List.reverse_reverse, List.reverse_append, take_absorb]

theorem length_rtake_le {α : Type} (n : Nat) (l : List α) :
    (l.rtake n).length ≤ n := by
  simp only [List.rtake, List.length_drop]
  omega

theorem rtake_of_length_le {α : Type} (n : Nat) (l : List α)
    (h : l.length ≤ n) : l.rtake n = l := by
  unfold List.rtake
  rw [Nat.sub_eq_zero_of_le h, List.drop_zero]

theorem trendGet_update_same (st : SubsState) (lv : LiveValue) (now : Nat)
    (q : ℚ) (hn : numericOfOpt lv.value = some q) :
    (mapGet (updateLiveValue st lv now).trendData lv.elementId).getD [] =
      (((mapGet st.trendData lv.elementId).getD []) ++
        [TrendPoint.mk q now]).rtake MAX_TREND_POINTS := by
  simp only [updateLiveValue, hn, mapGet_mapSet_self, Option.getD_some]

theorem trendGet_update_other (st : SubsState) (lv : LiveValue) (now : Nat)
    (e : String) (he : lv.elementId ≠ e) :
    mapGet (updateLiveValue st lv now).trendData e = mapGet st.trendData e := by
  unfold updateLiveValue
  cases hn : numericOfOpt lv.value with
  | none => simp only
  | some q =>
    simp only
    exact mapGet_mapSet_ne _ _ _ _ (Ne.symm he)

theorem trend_update_none (st : SubsState) (lv : LiveValue) (now : Nat)
    (hn : numericOfOpt lv.value = none) :
    (updateLiveValue st lv now).trendData = st.trendData := by
  simp only [updateLiveValue, hn]

theorem trend_after (ups : List (LiveValue × Nat)) :
    ∀ (st : SubsState) (e : String),
      ((mapGet st.trendData e).getD []).length ≤ MAX_TREND_POINTS →
      (mapGet (applyLiveUpdates st ups).trendData e).getD [] =
        ((mapGet st.trendData e).getD [] ++
          numericTrendPoints e ups).rtake MAX_TREND_POINTS := by
  induction ups with
  | nil =>
    intro st e h
    simp only [applyLiveUpdates, numericTrendPoints, List.filterMap_nil,
      List.append_nil]
    exact (rtake_of_length_le _ _ h).symm
  | cons u rest ih =>
    intro st e h
    rw [applyLiveUpdates]
    cases hn : numericOfOpt u.1.value with
    | none =>
      have htd := trend_update_none st u.1 u.2 hn
      rw [ih _ e (by rw [htd]; exact h), htd]
      have hpts : numericTrendPoints e (u :: rest) = numericTrendPoints e rest := by
        unfold numericTrendPoints
        rw [List.filterMap_cons]
        by_cases he : u.1.elementId = e <;> simp [he, hn]
      rw [hpts]
    | some q =>
      by_cases he : u.1.elementId = e
      · subst he
        have htd := trendGet_update_same st u.1 u.2 q hn
        rw [ih _ u.1.elementId (by rw [htd]; exact length_rtake_le _ _), htd,
          rtake_append_rtake]
        have hpts : numericTrendPoints u.1.elementId (u :: rest) =
            TrendPoint.mk q u.2 :: numericTrendPoints u.1.elementId rest := by
          unfold numericTrendPoints
          rw [List.filterMap_cons]
          simp [hn]
        rw [hpts, List.append_assoc]
        rfl
      · have htd := trendGet_update_other st u.1 u.2 e he
        rw [ih _ e (by rw [htd]; exact h), htd]
        have hpts : numericTrendPoints e (u :: rest) = numericTrendPoints e rest := by
          unfold numericTrendPoints
          rw [List.filterMap_cons]
          simp [he]
        rw [hpts]

/-- C4: starting from the empty store, after any sequence of
`updateLiveValue` calls the trend buffer of any element `e` holds
exactly the last (at most) 60 numeric points contributed by the updates
for `e`, in arrival order — so it never exceeds 60 points, the oldest
point is evicted first — and an update whose value is neither numeric
nor numeric-parseable leaves `trendData` entirely unchanged. -/
theorem trend_buffer_bounded (ups : List (LiveValue × Nat)) (e : String) :
    (mapGet (applyLiveUpdates emptySubsState ups).trendData e).getD [] =
      (numericTrendPoints e ups).rtake MAX_TREND_POINTS ∧
    ((mapGet (applyLiveUpdates emptySubsState ups).trendData e).getD []).length ≤
      MAX_TREND_POINTS ∧
    (∀ (st : SubsState) (lv : LiveValue) (now : Nat),
      numericOfOpt lv.value = none →
      (updateLiveValue st lv now).trendData = st.trendData) := by
  have h1 : (mapGet (applyLiveUpdates emptySubsState ups).trendData e).getD [] =
      (numericTrendPoints e ups).rtake MAX_TREND_POINTS := by
    have := trend_after ups emptySubsState e (by simp [emptySubsState, mapGet])
    simpa [emptySubsState, mapGet] using this
  refine ⟨h1, ?_, fun st lv now hn => trend_update_none st lv now hn⟩
  rw [h1]
  exact length_rtake_le _ _

/-- Witness for C4: sixty-one numeric updates for `"e"` (values and
timestamps 0..60) leave exactly the sixty most recent points 1..60 —
the earliest point is evicted — and a non-parseable string update leaves
the (empty) trend data unchanged. -/
theorem trend_buffer_bounded_witness :
    (mapGet (applyLiveUpdates emptySubsState
        ((List.range 61).map (fun (i : ℕ) =>
          (LiveValue.mk "e" "" (some (JVal.num i)) JVal.nullv JVal.nullv 0,
            i)))).trendData "e").getD [] =
      (List.range 60).map (fun (i : ℕ) => TrendPoint.mk ((i + 1 : ℕ) : ℚ) (i + 1)) ∧
    (updateLiveValue emptySubsState
        (LiveValue.mk "e" "" (some (JVal.str "Good")) JVal.nullv JVal.nullv 0)
        0).trendData = emptySubsState.trendData := by
  constructor
  · exact (trend_buffer_bounded
      ((List.range 61).map (fun (i : ℕ) =>
        (LiveValue.mk "e" "" (some (JVal.num i)) JVal.nullv JVal.nullv 0, i)))
      "e").1.trans (by decide)
  · exact (trend_buffer_bounded [] "e").2.2 emptySubsState
      (LiveValue.mk "e" "" (some (JVal.str "Good")) JVal.nullv JVal.nullv 0)
      0 (by simp only [numericOfOpt, numericOf, jsStringOf]; decide)

/-! ## Unregistration (C5) -/

theorem not_mem_filter_ne (l : List String) (e : String) :
    e ∉ l.filter (fun i => i != e) := by
  intro h
  rw [List.mem_filter] at h
  simp at h

/-- A store with one subscription `"s"` monitoring `"e"`, one numeric
live update for `"e"`, after which `"e"` is unregistered from `"s"`. -/
def c5Inner : SubsState :=
  updateLiveValue
    (addSubscription emptySubsState (Subscription.mk "s" "" ["e"] false))
    (LiveValue.mk "e" "Element e" (some (JVal.num 42)) JVal.nullv
      (JVal.str "Good") 0) 0

def c5State : SubsState :=
  removeMonitoredItem c5Inner "s" "e"

/-- Counterexample to C5: after unregistering `"e"`
(`removeMonitoredItem "s" "e"`), the live value for `"e"` is gone and
`"e"` is no longer monitored, but the trend buffer for `"e"` is NOT
removed — it still holds the point recorded before unregistration,
refuting the claim that the store has no trend buffer for `e`. -/
theorem unregister_leaves_trend_buffer :
    mapGet c5State.liveValues "e" = none ∧
    "e" ∉ monitoredOf c5State "s" ∧
    mapGet c5State.trendData "e" ≠ none ∧
    mapGet c5State.trendData "e" = some [TrendPoint.mk 42 0] := by
  refine ⟨rfl, by decide, by decide, rfl⟩

/-- C5 (amended): after `removeMonitoredItem` on an existing
subscription, the Live Value Store has no live value entry for the
element and the element is no longer in that subscription's monitored
set; the element's trend buffer, however, is left untouched (the method
never modifies `trendData`). -/
theorem removeMonitoredItem_spec (st : SubsState) (sid e : String)
    (sub : Subscription) (hs : mapGet st.subscriptions sid = some sub) :
    mapGet (removeMonitoredItem st sid e).liveValues e = none ∧
    e ∉ monitoredOf (removeMonitoredItem st sid e) sid ∧
    (removeMonitoredItem st sid e).trendData = st.trendData := by
  unfold removeMonitoredItem
  rw [hs]
  refine ⟨mapGet_mapDelete_self _ _, ?_, rfl⟩
  unfold monitoredOf
  simp only [mapGet_mapSet_self, Option.map_some, Option.map_some', Option.getD_some]
  exact not_mem_filter_ne _ _

/-- Witness for C5's amended claim: evaluated on the concrete store of
the counterexample. -/
theorem removeMonitoredItem_spec_witness :
    mapGet (removeMonitoredItem c5Inner "s" "e").liveValues "e" = none ∧
    "e" ∉ monitoredOf (removeMonitoredItem c5Inner "s" "e") "s" ∧
    (removeMonitoredItem c5Inner "s" "e").trendData = c5Inner.trendData := by
  exact removeMonitoredItem_spec c5Inner "s" "e"
    (Subscription.mk "s" "" ["e"] false) (by decide)

/-! ## Monitored set invariants (C8) -/

inductive MonOp : Type where
  | add (subscriptionId elementId : String)
  | remove (subscriptionId elementId : String)

def applyMonOp (st : SubsState) : MonOp → SubsState
  | .add sid e => addMonitoredItem st sid e
  | .remove sid e => removeMonitoredItem st sid e

def applyMonOps (st : SubsState) (ops : List MonOp) : SubsState :=
  ops.foldl applyMonOp st

/-- Every subscription's monitored list is duplicate-free. -/
def MonitoredNodup (st : SubsState) : Prop :=
  ∀ entry ∈ st.subscriptions, entry.2.monitoredItems.Nodup

instance (st : SubsState) : Decidable (MonitoredNodup st) :=
  inferInstanceAs
    (Decidable (∀ entry ∈ st.subscriptions, entry.2.monitoredItems.Nodup))

theorem addMonitoredItem_mem (st : SubsState) (sid e : String)
    (sub : Subscription) (hs : mapGet st.subscriptions sid = some sub)
    (hm : e ∈ sub.monitoredItems) : addMonitoredItem st sid e = st := by
  unfold addMonitoredItem
  split
  next sub2 hs2 =>
    injection (hs.symm.trans hs2) with he
    subst he
    exact if_pos hm
  next hs2 =>
    simp [hs] at hs2

theorem addMonitoredItem_not_mem (st : SubsState) (sid e : String)
    (sub : Subscription) (hs : mapGet st.subscriptions sid = some sub)
    (hm : e ∉ sub.monitoredItems) :
    addMonitoredItem st sid e =
      { st with subscriptions := (mapSet st.subscriptions sid
          { sub with monitoredItems := sub.monitoredItems ++ [e] }) } := by
  unfold addMonitoredItem
  split
  next sub2 hs2 =>
    injection (hs.symm.trans hs2) with he
    subst he
    exact if_neg hm
  next hs2 =>
    simp [hs] at hs2

theorem removeMonitoredItem_eq (st : SubsState) (sid e : String)
    (sub : Subscription) (hs : mapGet st.subscriptions sid = some sub) :
    removeMonitoredItem st sid e =
      { st with
        subscriptions := (mapSet st.subscriptions sid
          { sub with monitoredItems :=
              sub.monitoredItems.filter (fun i => i != e) }),
        liveValues := mapDelete st.liveValues e } := by
  unfold removeMonitoredItem
  split
  next sub2 hs2 =>
    injection (hs.symm.trans hs2) with he
    subst he
    rfl
  next hs2 =>
    simp [hs] at hs2

theorem monitoredNodup_add (st : SubsState) (sid e : String)
    (h : MonitoredNodup st) : MonitoredNodup (addMonitoredItem st sid e) := by
  cases hs : mapGet st.subscriptions sid with
  | none =>
    unfold addMonitoredItem
    rw [hs]
    exact h
  | some sub =>
    by_cases hm : e ∈ sub.monitoredItems
    · rw [addMonitoredItem_mem st sid e sub hs hm]
      exact h
    · rw [addMonitoredItem_not_mem st sid e sub hs hm]
      intro entry hentry
      rcases mem_of_mem_mapSet _ _ _ _ hentry with h1 | h1
      · exact h entry h1
      · subst h1
        have hnd : sub.monitoredItems.Nodup :=
          h (sid, sub) (mapGet_some_mem _ _ _ hs)
        simp only
        rw [List.nodup_append]
        refine ⟨hnd, List.nodup_singleton e, ?_⟩
        intro a ha hb
        rw [List.mem_singleton] at hb
        subst hb
        exact hm ha

theorem monitoredNodup_remove (st : SubsState) (sid e : String)
    (h : MonitoredNodup st) : MonitoredNodup (removeMonitoredItem st sid e) := by
  cases hs : mapGet st.subscriptions sid with
  | none =>
    unfold removeMonitoredItem
    rw [hs]
    exact h
  | some sub =>
    rw [removeMonitoredItem_eq st sid e sub hs]
    intro entry hentry
    rcases mem_of_mem_mapSet _ _ _ _ hentry with h1 | h1
    · exact h entry h1
    · subst h1
      have hnd : sub.monitoredItems.Nodup :=
        h (sid, sub) (mapGet_some_mem _ _ _ hs)
      exact hnd.filter _

theorem monitoredNodup_ops (ops : List MonOp) :
    ∀ st : SubsState, MonitoredNodup st → MonitoredNodup (applyMonOps st ops) := by
  induction ops with
  | nil => intro st h; exact h
  | cons op rest ih =>
    intro st h
    simp only [applyMonOps, List.foldl_cons]
    refine ih (applyMonOp st op) ?_
    cases op with
    | add sid e => exact monitoredNodup_add st sid e h
    | remove sid e => exact monitoredNodup_remove st sid e h

/-- C8: under every sequence of `addMonitoredItem`/`removeMonitoredItem`
operations the monitored lists stay duplicate-free; adding an
already-present element is a no-op (the state is returned unchanged);
adding an absent element appends it at the end (so earlier registration
order is untouched); and removal yields a sublist of the previous
monitored list (insertion order of the survivors is preserved) no longer
containing the removed element. -/
theorem monitored_set_invariants :
    (∀ (st : SubsState) (ops : List MonOp), MonitoredNodup st →
      MonitoredNodup (applyMonOps st ops)) ∧
    (∀ (st : SubsState) (sid e : String) (sub : Subscription),
      mapGet st.subscriptions sid = some sub → e ∈ sub.monitoredItems →
      addMonitoredItem st sid e = st) ∧
    (∀ (st : SubsState) (sid e : String) (sub : Subscription),
      mapGet st.subscriptions sid = some sub → e ∉ sub.monitoredItems →
      monitoredOf (addMonitoredItem st sid e) sid = sub.monitoredItems ++ [e]) ∧
    (∀ (st : SubsState) (sid e : String) (sub : Subscription),
      mapGet st.subscriptions sid = some sub →
      List.Sublist (monitoredOf (removeMonitoredItem st sid e) sid)
        sub.monitoredItems ∧
      e ∉ monitoredOf (removeMonitoredItem st sid e) sid) := by
  refine ⟨fun st ops h => monitoredNodup_ops ops st h, ?_, ?_, ?_⟩
  · intro st sid e sub hs hm
    exact addMonitoredItem_mem st sid e sub hs hm
  · intro st sid e sub hs hm
    rw [addMonitoredItem_not_mem st sid e sub hs hm]
    unfold monitoredOf
    simp only [mapGet_mapSet_self, Option.map_some, Option.map_some', Option.getD_some]
  · intro st sid e sub hs
    rw [removeMonitoredItem_eq st sid e sub hs]
    unfold monitoredOf
    simp only [mapGet_mapSet_self, Option.map_some, Option.map_some', Option.getD_some]
    exact ⟨List.filter_sublist _, not_mem_filter_ne _ _⟩

/-- Witness for C8: concrete checks on a store whose subscription `"s"`
monitors `["a", "b"]`. -/
theorem monitored_set_invariants_witness :
    MonitoredNodup (applyMonOps
      (SubsState.mk [("s", Subscription.mk "s" "" ["a", "b"] false)] [] [] none)
      [MonOp.add "s" "c", MonOp.remove "s" "a", MonOp.add "s" "c"]) ∧
    addMonitoredItem
      (SubsState.mk [("s", Subscription.mk "s" "" ["a", "b"] false)] [] [] none)
      "s" "b" =
      SubsState.mk [("s", Subscription.mk "s" "" ["a", "b"] false)] [] [] none ∧
    monitoredOf (addMonitoredItem
      (SubsState.mk [("s", Subscription.mk "s" "" ["a", "b"] false)] [] [] none)
      "s" "c") "s" = ["a", "b", "c"] ∧
    "a" ∉ monitoredOf (removeMonitoredItem
      (SubsState.mk [("s", Subscription.mk "s" "" ["a", "b"] false)] [] [] none)
      "s" "a") "s" := by
  refine ⟨?_, ?_, ?_, ?_⟩
  · exact monitored_set_invariants.1
      (SubsState.mk [("s", Subscription.mk "s" "" ["a", "b"] false)] [] [] none)
      [MonOp.add "s" "c", MonOp.remove "s" "a", MonOp.add "s" "c"]
      (by decide)
  · exact monitored_set_invariants.2.1
      (SubsState.mk [("s", Subscription.mk "s" "" ["a", "b"] false)] [] [] none)
      "s" "b" (Subscription.mk "s" "" ["a", "b"] false) (by decide) (by decide)
  · exact monitored_set_invariants.2.2.1
      (SubsState.mk [("s", Subscription.mk "s" "" ["a", "b"] false)] [] [] none)
      "s" "c" (Subscription.mk "s" "" ["a", "b"] false) (by decide) (by decide)
  · exact (monitored_set_invariants.2.2.2
      (SubsState.mk [("s", Subscription.mk "s" "" ["a", "b"] false)] [] [] none)
      "s" "a" (Subscription.mk "s" "" ["a", "b"] false) (by decide)).2

end I3X
